import Mathlib

/-!
Shallow embedding of the containerssh webhook handlers of envd-server
(`pkg/server/containerssh.go`): the `OnConfig` route-resolution handler and
the `OnPubKey` public-key verification handler, together with the pieces of
their dependencies that the verification needs:

* `sshname.GetInfo` — the username codec (the `sshname` package is part of
  this repository but its source is not in this slice, so it is modelled
  from the spec).
* `crypto/subtle.ConstantTimeCompare` / `ConstantTimeByteEq` — Go standard
  library, embedded from their well-known source, with an explicit cost
  model (`ctSteps`) counting the iterations of the comparison loop.
* the user store (`s.Queries.GetUser`) and the authorized-key parser
  (`ssh.ParseAuthorizedKey`) — external collaborators, abstracted as
  function parameters.

Byte strings are embedded as `List Nat` with the invariant that every
element is `< 256` stated as a hypothesis where it matters.
Handlers that in Go either write a 500 error response and return early, or
write a 200 response, are embedded as functions into `Except`:
`.error` corresponds to the early 500 exit, `.ok` to the 200 response body.
-/

/-- The only failure of the username codec: the string does not match the
owner/target encoding grammar. -/
inductive SshNameError where
  | malformedIdentity
  deriving DecidableEq, Repr

/-- Worker for the username codec: finds the single `#` delimiter in a
character list.  Returns `some (owner, target)` when the list is
`owner ++ '#' :: target` with no `#` inside either segment, `none` when the
list contains zero or more than one delimiter. -/
def splitIdent : List Char → Option (List Char × List Char)
  | [] => none
  | c :: cs =>
    if c = '#' then
      if '#' ∈ cs then none else some ([], cs)
    else
      match splitIdent cs with
      | some (o, t) => some (c :: o, t)
      | none => none

/-- Modelled from the spec: `sshname.GetInfo` (the `sshname` package of this
repository is not part of this source slice).  Per the spec's IdentityCodec
contract, the username must consist of a non-empty owner segment and a
non-empty target segment separated by exactly one delimiter (`#`); empty
segments and zero or multiple delimiters are malformed.  Returns
`(owner, target)` on success. -/
def GetInfo (username : String) : Except SshNameError (String × String) :=
  match splitIdent username.data with
  | none => .error .malformedIdentity
  | some ([], _) => .error .malformedIdentity
  | some (_, []) => .error .malformedIdentity
  | some (o, t) => .ok (⟨o⟩, ⟨t⟩)

/-- Go `crypto/subtle.ConstantTimeByteEq x y`:
`int((uint32(x^y) - 1) >> 31)`, i.e. 1 when the two bytes are equal and 0
otherwise.  Arguments are `uint8`, hence the `% 256`. -/
def ConstantTimeByteEq (x y : Nat) : Nat :=
  ((((x % 256) ^^^ (y % 256)) + 4294967295) % 4294967296) >>> 31

/-- The loop of Go `crypto/subtle.ConstantTimeCompare`: accumulates
`v |= x[i] ^ y[i]` over the two byte slices. -/
def ctAcc : Nat → List Nat → List Nat → Nat
  | v, x :: xs, y :: ys => ctAcc (v ||| (x ^^^ y)) xs ys
  | v, _, _ => v

/-- Cost model for the comparison loop of `ConstantTimeCompare`: the number
of iterations the loop performs (one per index of the two slices, which have
equal length when the loop runs at all). -/
def ctLoopCount : List Nat → List Nat → Nat
  | _ :: xs, _ :: ys => ctLoopCount xs ys + 1
  | _, _ => 0

/-- Go `crypto/subtle.ConstantTimeCompare x y`: returns 0 when the lengths
differ, otherwise or-accumulates the xor of every byte pair and compares the
accumulator against 0 in constant time. -/
def ConstantTimeCompare (x y : List Nat) : Nat :=
  if x.length = y.length then ConstantTimeByteEq (ctAcc 0 x y) 0 else 0

/-- Number of byte-comparison loop iterations `ConstantTimeCompare x y`
performs: 0 on a length mismatch (the loop is never entered), otherwise one
per index. -/
def ctSteps (x y : List Nat) : Nat :=
  if x.length = y.length then ctLoopCount x y else 0

/-- Embeds `config.SSHProxyConfig` — the fields `OnConfig` populates. -/
structure SSHProxyConfig where
  server : String
  port : Nat
  username : String
  allowedHostKeyFingerprints : List String
  deriving DecidableEq, Repr

/-- Embeds `config.AppConfig` — the fields `OnConfig` populates. -/
structure AppConfig where
  backend : String
  sshProxy : SSHProxyConfig
  deriving DecidableEq, Repr

/-- The server state read by the handlers: the process-wide trusted
fingerprint set `s.serverFingerPrints`. -/
structure Server where
  serverFingerPrints : List String
  deriving DecidableEq, Repr

/-- Embeds `Server.OnConfig`, after JSON binding: decodes the username via
`sshname.GetInfo` (500 with the codec error on failure) and otherwise
answers 200 with an `AppConfig` routing to the decoded target name on the
fixed port 2222 as the fixed proxy user `"envd"`, with the process-wide
fingerprint set attached unmodified. -/
def OnConfig (s : Server) (username : String) : Except SshNameError AppConfig :=
  match GetInfo username with
  | .error err => .error err
  | .ok (_, name) =>
    .ok { backend := "sshproxy"
          sshProxy :=
            { server := name
              port := 2222
              username := "envd"
              allowedHostKeyFingerprints := s.serverFingerPrints } }

/-- State-passing form of the `OnConfig` handler: the handler only reads the
server state (`s.serverFingerPrints`); it performs no write to it, so the
state it finishes with is the state it was given. -/
def OnConfigS (s : Server) (username : String) :
    Except SshNameError AppConfig × Server :=
  (OnConfig s username, s)

/-- Errors of `pgx` database queries as `OnPubKey` distinguishes them:
`pgx.ErrNoRows` versus anything else. -/
inductive DBError where
  | noRows
  | other
  deriving DecidableEq, Repr

/-- The user record returned by `s.Queries.GetUser`; `OnPubKey` reads only
its `PublicKey` bytes. -/
structure UserRecord where
  publicKey : List Nat
  deriving DecidableEq, Repr

/-- The early-500 exits of `OnPubKey`, in source order: the `sshname` codec
error, `"user not found"` on `pgx.ErrNoRows`, `"Internal error"` on any
other store error, and the `ssh.ParseAuthorizedKey` error. -/
inductive PubKeyError where
  | sshName (e : SshNameError)
  | userNotFound
  | internalError
  | keyParse
  deriving DecidableEq, Repr

/-- Embeds `auth.ResponseBody` — the verdict body of a 200 answer of `OnPubKey`. -/
structure ResponseBody where
  success : Bool
  deriving DecidableEq, Repr

/-- Embeds `Server.OnPubKey`, after JSON binding.  `getUser` abstracts the
`s.Queries.GetUser` store call; `parseKey` abstracts
`ssh.ParseAuthorizedKey` composed with `key.Marshal()`, i.e. it yields the
canonical marshalled bytes of the candidate key (or `none` on a parse
error).  Decodes the username, looks up the owner, parses the candidate
key, and answers 200 with `Success := true` exactly when the Go code's
`subtle.ConstantTimeCompare(key.Marshal(), user.PublicKey) == 1`. -/
def OnPubKey (getUser : String → Except DBError UserRecord)
    (parseKey : String → Option (List Nat))
    (username : String) (publicKey : String) :
    Except PubKeyError ResponseBody :=
  match GetInfo username with
  | .error err => .error (.sshName err)
  | .ok (owner, _) =>
    match getUser owner with
    | .error .noRows => .error .userNotFound
    | .error .other => .error .internalError
    | .ok user =>
      match parseKey publicKey with
      | none => .error .keyParse
      | some keyBytes =>
        if ConstantTimeCompare keyBytes user.publicKey = 1 then
          .ok { success := true }
        else
          .ok { success := false }

/-! ### Helper lemmas about the constant-time comparison -/

lemma or_eq_zero (a b : Nat) : a ||| b = 0 ↔ a = 0 ∧ b = 0 := by
  constructor
  · intro h
    have ha : a = 0 := by
      apply Nat.eq_of_testBit_eq
      intro k
      have hk := congrArg (fun n => n.testBit k) h
      simp [Nat.testBit_or] at hk
      simp [hk.1]
    have hb : b = 0 := by
      apply Nat.eq_of_testBit_eq
      intro k
      have hk := congrArg (fun n => n.testBit k) h
      simp [Nat.testBit_or] at hk
      simp [hk.2]
    exact ⟨ha, hb⟩
  · rintro ⟨rfl, rfl⟩
    rfl

lemma ctAcc_eq_zero_iff : ∀ (x y : List Nat) (v : Nat),
    ctAcc v x y = 0 ↔ v = 0 ∧ ∀ p ∈ x.zip y, p.1 = p.2
  | [], y, v => by simp [ctAcc]
  | x :: xs, [], v => by simp [ctAcc]
  | x :: xs, y :: ys, v => by
    rw [show ctAcc v (x :: xs) (y :: ys) = ctAcc (v ||| (x ^^^ y)) xs ys from rfl]
    rw [ctAcc_eq_zero_iff xs ys, or_eq_zero, Nat.xor_eq_zero]
    simp only [List.zip_cons_cons, List.forall_mem_cons]
    tauto

lemma zip_forall_eq : ∀ (x y : List Nat), x.length = y.length →
    ((∀ p ∈ x.zip y, p.1 = p.2) ↔ x = y)
  | [], [], _ => by simp
  | [], _ :: _, h => by simp at h
  | _ :: _, [], h => by simp at h
  | a :: xs, b :: ys, h => by
    simp only [List.length_cons, Nat.add_right_cancel_iff] at h
    rw [List.zip_cons_cons]
    simp only [List.forall_mem_cons]
    rw [zip_forall_eq xs ys h, List.cons_eq_cons]

lemma ctAcc_lt : ∀ (x y : List Nat) (v : Nat), v < 256 →
    (∀ b ∈ x, b < 256) → (∀ b ∈ y, b < 256) → ctAcc v x y < 256
  | [], _, v, hv, _, _ => by simpa [ctAcc] using hv
  | _ :: _, [], v, hv, _, _ => by simpa [ctAcc] using hv
  | x :: xs, y :: ys, v, hv, hx, hy => by
    rw [show ctAcc v (x :: xs) (y :: ys) = ctAcc (v ||| (x ^^^ y)) xs ys from rfl]
    apply ctAcc_lt xs ys
    · have h256 : (256 : Nat) = 2 ^ 8 := rfl
      rw [h256] at hv ⊢
      exact Nat.or_lt_two_pow hv
        (Nat.xor_lt_two_pow (h256 ▸ hx x (by simp)) (h256 ▸ hy y (by simp)))
    · intro b hb
      exact hx b (by simp [hb])
    · intro b hb
      exact hy b (by simp [hb])

set_option maxRecDepth 4096 in
lemma byteEq_one_iff : ∀ v < 256, (ConstantTimeByteEq v 0 = 1 ↔ v = 0) := by decide

lemma constantTimeCompare_eq_one_iff (x y : List Nat)
    (hx : ∀ b ∈ x, b < 256) (hy : ∀ b ∈ y, b < 256) :
    ConstantTimeCompare x y = 1 ↔ x = y := by
  unfold ConstantTimeCompare
  by_cases h : x.length = y.length
  · rw [if_pos h, byteEq_one_iff _ (ctAcc_lt x y 0 (by norm_num) hx hy),
      ctAcc_eq_zero_iff, zip_forall_eq x y h]
    simp
  · rw [if_neg h]
    constructor
    · intro h01
      exact absurd h01 (by norm_num)
    · intro hxy
      exact absurd (congrArg List.length hxy) h

/-! ### Helper lemmas about the username codec -/

lemma splitIdent_append (o t : List Char) (ho : '#' ∉ o) (ht : '#' ∉ t) :
    splitIdent (o ++ '#' :: t) = some (o, t) := by
  induction o with
  | nil =>
    simp [splitIdent, ht]
  | cons c o ih =>
    have hc : c ≠ '#' := fun h => ho (by simp [h])
    have ho' : '#' ∉ o := fun h => ho (by simp [h])
    simp [splitIdent, hc, ih ho']

lemma splitIdent_sound : ∀ (cs o t : List Char),
    splitIdent cs = some (o, t) → cs = o ++ '#' :: t ∧ '#' ∉ o ∧ '#' ∉ t
  | [], o, t => by simp [splitIdent]
  | c :: cs, o, t => by
    by_cases hc : c = '#'
    · subst hc
      by_cases hm : '#' ∈ cs
      · simp [splitIdent, hm]
      · simp only [splitIdent, if_pos rfl, if_neg hm, Option.some.injEq, Prod.mk.injEq]
        rintro ⟨rfl, rfl⟩
        exact ⟨rfl, by simp, hm⟩
    · cases hsp : splitIdent cs with
      | none =>
        simp [splitIdent, hc, hsp]
      | some p =>
        obtain ⟨o', t'⟩ := p
        have ih := splitIdent_sound cs o' t' hsp
        simp only [splitIdent, if_neg hc, hsp, Option.some.injEq, Prod.mk.injEq]
        rintro ⟨rfl, rfl⟩
        refine ⟨by rw [ih.1]; rfl, ?_, ih.2.2⟩
        simp only [List.mem_cons, not_or]
        exact ⟨fun h => hc h.symm, ih.2.1⟩

lemma splitIdent_eq_some (cs o t : List Char) :
    splitIdent cs = some (o, t) ↔ cs = o ++ '#' :: t ∧ '#' ∉ o ∧ '#' ∉ t := by
  constructor
  · exact splitIdent_sound cs o t
  · rintro ⟨rfl, ho, ht⟩
    exact splitIdent_append o t ho ht

lemma string_eq_iff_data (a b : String) : a = b ↔ a.data = b.data :=
  ⟨fun h => h ▸ rfl, String.ext⟩

lemma string_append_sharp_data (o t : String) :
    (o ++ "#" ++ t).data = o.data ++ '#' :: t.data := by
  simp [String.data_append]

lemma getInfo_ok_iff (s o t : String) :
    GetInfo s = .ok (o, t) ↔
      s = o ++ "#" ++ t ∧ o ≠ "" ∧ t ≠ "" ∧ '#' ∉ o.data ∧ '#' ∉ t.data := by
  have hne : ∀ a : String, (a ≠ "") ↔ a.data ≠ [] := fun a =>
    not_congr (string_eq_iff_data a "")
  rw [string_eq_iff_data s, string_append_sharp_data, hne o, hne t]
  constructor
  · intro h
    unfold GetInfo at h
    cases hsp : splitIdent s.data with
    | none => rw [hsp] at h; simp at h
    | some p =>
      obtain ⟨o', t'⟩ := p
      have hspec := splitIdent_sound s.data o' t' hsp
      rw [hsp] at h
      cases o' with
      | nil => simp at h
      | cons a o'' =>
        cases t' with
        | nil => simp at h
        | cons b t'' =>
          simp only [Except.ok.injEq, Prod.mk.injEq] at h
          obtain ⟨rfl, rfl⟩ := h
          exact ⟨hspec.1, by simp, by simp, hspec.2.1, hspec.2.2⟩
  · rintro ⟨hs, ho, ht, hho, hht⟩
    have hsp : splitIdent s.data = some (o.data, t.data) := by
      rw [hs]
      exact splitIdent_append _ _ hho hht
    unfold GetInfo
    rw [hsp]
    cases hdo : o.data with
    | nil => exact absurd hdo ho
    | cons a o'' =>
      cases hdt : t.data with
      | nil => exact absurd hdt ht
      | cons b t'' =>
        simp only [Except.ok.injEq, Prod.mk.injEq]
        constructor
        · exact String.ext (by rw [hdo])
        · exact String.ext (by rw [hdt])

lemma ctLoopCount_eq : ∀ x y : List Nat, ctLoopCount x y = min x.length y.length
  | [], _ => by simp [ctLoopCount]
  | _ :: _, [] => by simp [ctLoopCount]
  | x :: xs, y :: ys => by
    simp [ctLoopCount, ctLoopCount_eq xs ys, Nat.succ_min_succ]

/-- Sample user store for concrete evaluations: `"alice"` has stored key
bytes `[1, 2, 3]`; every other owner is unknown. -/
def sampleGetUser : String → Except DBError UserRecord := fun owner =>
  if owner = "alice" then .ok { publicKey := [1, 2, 3] } else .error .noRows

/-- Sample authorized-key parser for concrete evaluations: `"good-key"`
marshals to `[1, 2, 3]`, `"bad-key"` to `[1, 2, 4]`, anything else fails to
parse. -/
def sampleParseKey : String → Option (List Nat) := fun s =>
  if s = "good-key" then some [1, 2, 3]
  else if s = "bad-key" then some [1, 2, 4]
  else none

/-- Claim C1: `OnPubKey` answers `success := true` iff the canonical
marshalled bytes of the parsed candidate key are exactly the stored key's
bytes; any difference yields `success := false`; no partial, prefix or
case-insensitive match. -/
theorem onPubKey_success_iff_exact_key_match
    (getUser : String → Except DBError UserRecord)
    (parseKey : String → Option (List Nat))
    (username pk owner target : String) (user : UserRecord) (keyBytes : List Nat)
    (hname : GetInfo username = .ok (owner, target))
    (huser : getUser owner = .ok user)
    (hkey : parseKey pk = some keyBytes)
    (hkb : ∀ b ∈ keyBytes, b < 256)
    (hsb : ∀ b ∈ user.publicKey, b < 256) :
    (OnPubKey getUser parseKey username pk = .ok { success := true } ↔
      keyBytes = user.publicKey) ∧
    (OnPubKey getUser parseKey username pk = .ok { success := false } ↔
      keyBytes ≠ user.publicKey) := by
  by_cases hcmp : keyBytes = user.publicKey
  · have h1 : ConstantTimeCompare keyBytes user.publicKey = 1 :=
      (constantTimeCompare_eq_one_iff _ _ hkb hsb).mpr hcmp
    subst hcmp
    simp [OnPubKey, hname, huser, hkey, h1]
  · have h1 : ConstantTimeCompare keyBytes user.publicKey ≠ 1 := fun h =>
      hcmp ((constantTimeCompare_eq_one_iff _ _ hkb hsb).mp h)
    simp [OnPubKey, hname, huser, hkey, h1, hcmp]

/-- Witness for C1 at concrete inputs: the matching candidate key is
accepted and the one-byte-off candidate key is refused. -/
theorem onPubKey_success_iff_exact_key_match_witness :
    (OnPubKey sampleGetUser sampleParseKey "alice#gpu-box-1" "good-key" =
        .ok { success := true } ↔ [1, 2, 3] = [1, 2, 3]) ∧
    (OnPubKey sampleGetUser sampleParseKey "alice#gpu-box-1" "good-key" =
        .ok { success := false } ↔ [1, 2, 3] ≠ [1, 2, 3]) :=
  onPubKey_success_iff_exact_key_match sampleGetUser sampleParseKey
    "alice#gpu-box-1" "good-key" "alice" "gpu-box-1" { publicKey := [1, 2, 3] }
    [1, 2, 3] rfl rfl rfl (by decide) (by decide)

/-- Claim C2: The number of byte-comparison loop iterations performed by the
`ConstantTimeCompare` call of `OnPubKey` depends only on the lengths of the
two byte strings, never on their contents — in particular not on the
position of the first mismatching byte. -/
theorem ctSteps_independent_of_content (a b b' : List Nat)
    (h : b.length = b'.length) : ctSteps a b = ctSteps a b' := by
  unfold ctSteps
  rw [ctLoopCount_eq, ctLoopCount_eq, h]

/-- Witness for C2: candidate keys differing from the stored key at the
first byte and at the last byte take the same number of loop iterations. -/
theorem ctSteps_independent_of_content_witness :
    ctSteps [1, 2, 3] [9, 2, 3] = ctSteps [1, 2, 3] [1, 2, 9] :=
  ctSteps_independent_of_content [1, 2, 3] [9, 2, 3] [1, 2, 9] (by decide)

/-- Claim C3: The username codec decodes `owner#target` (non-empty segments,
single delimiter) to exactly `(owner, target)`, and rejects every string
with zero or multiple delimiters or an empty segment with
`MalformedIdentity`. -/
theorem getInfo_decode_correct (s o t : String) :
    (GetInfo s = .ok (o, t) ↔
      s = o ++ "#" ++ t ∧ o ≠ "" ∧ t ≠ "" ∧ '#' ∉ o.data ∧ '#' ∉ t.data) ∧
    ((¬ ∃ o' t' : String, s = o' ++ "#" ++ t' ∧ o' ≠ "" ∧ t' ≠ "" ∧
        '#' ∉ o'.data ∧ '#' ∉ t'.data) →
      GetInfo s = .error .malformedIdentity) := by
  refine ⟨getInfo_ok_iff s o t, ?_⟩
  intro hno
  cases hg : GetInfo s with
  | error e => cases e; rfl
  | ok p =>
    obtain ⟨o', t'⟩ := p
    exact absurd ⟨o', t', (getInfo_ok_iff s o' t').mp hg⟩ hno

/-- Witness for C3: a well-formed username decodes exactly, and a
delimiter-free username is rejected as malformed. -/
theorem getInfo_decode_correct_witness :
    GetInfo "alice#gpu-box-1" = .ok ("alice", "gpu-box-1") ∧
    GetInfo "malformed-no-delimiter" = .error .malformedIdentity := by
  constructor
  · exact ((getInfo_decode_correct "alice#gpu-box-1" "alice" "gpu-box-1").1).mpr
      (by decide)
  · apply (getInfo_decode_correct "malformed-no-delimiter" "alice" "gpu-box-1").2
    rintro ⟨o', t', hs, -, -, -, -⟩
    have hmem : '#' ∈ "malformed-no-delimiter".data := by
      rw [hs, string_append_sharp_data]
      simp
    exact absurd hmem (by decide)

/-- Claim C4: Every error of the taxonomy — malformed identity, unknown user,
other store error, unparseable candidate key — makes `OnPubKey` exit with an
explicit error (a 500 early return), never a `success := false` verdict; a
verdict is produced only when every step succeeded. -/
theorem onPubKey_errors_not_coerced
    (getUser : String → Except DBError UserRecord)
    (parseKey : String → Option (List Nat))
    (username pk : String) :
    (∀ e, GetInfo username = .error e →
      OnPubKey getUser parseKey username pk = .error (.sshName e)) ∧
    (∀ owner target, GetInfo username = .ok (owner, target) →
      getUser owner = .error .noRows →
      OnPubKey getUser parseKey username pk = .error .userNotFound) ∧
    (∀ owner target, GetInfo username = .ok (owner, target) →
      getUser owner = .error .other →
      OnPubKey getUser parseKey username pk = .error .internalError) ∧
    (∀ owner target user, GetInfo username = .ok (owner, target) →
      getUser owner = .ok user → parseKey pk = none →
      OnPubKey getUser parseKey username pk = .error .keyParse) ∧
    (∀ v, OnPubKey getUser parseKey username pk = .ok v →
      ∃ owner target user keyBytes,
        GetInfo username = .ok (owner, target) ∧ getUser owner = .ok user ∧
        parseKey pk = some keyBytes) := by
  refine ⟨?_, ?_, ?_, ?_, ?_⟩
  · intro e he
    simp [OnPubKey, he]
  · intro o t ho hu
    simp [OnPubKey, ho, hu]
  · intro o t ho hu
    simp [OnPubKey, ho, hu]
  · intro o t u ho hu hp
    simp [OnPubKey, ho, hu, hp]
  · intro v hv
    cases hg : GetInfo username with
    | error e => simp [OnPubKey, hg] at hv
    | ok p =>
      obtain ⟨o, t⟩ := p
      cases hu : getUser o with
      | error e => cases e <;> simp [OnPubKey, hg, hu] at hv
      | ok u =>
        cases hp : parseKey pk with
        | none => simp [OnPubKey, hg, hu, hp] at hv
        | some kb => exact ⟨o, t, u, kb, rfl, hu, rfl⟩

/-- Witness for C4 at concrete inputs: a delimiter-free username, an
unknown user, and an unparseable key each yield the corresponding hard
error from `OnPubKey`, not a verdict. -/
theorem onPubKey_errors_not_coerced_witness :
    OnPubKey sampleGetUser sampleParseKey "malformed-no-delimiter" "good-key" =
      .error (.sshName .malformedIdentity) ∧
    OnPubKey sampleGetUser sampleParseKey "bob#gpu-box-1" "good-key" =
      .error .userNotFound ∧
    OnPubKey sampleGetUser sampleParseKey "alice#gpu-box-1" "garbage" =
      .error .keyParse := by
  refine ⟨?_, ?_, ?_⟩
  · exact (onPubKey_errors_not_coerced sampleGetUser sampleParseKey
      "malformed-no-delimiter" "good-key").1 .malformedIdentity rfl
  · exact (onPubKey_errors_not_coerced sampleGetUser sampleParseKey
      "bob#gpu-box-1" "good-key").2.1 "bob" "gpu-box-1" rfl rfl
  · exact (onPubKey_errors_not_coerced sampleGetUser sampleParseKey
      "alice#gpu-box-1" "garbage").2.2.2.1 "alice" "gpu-box-1"
      { publicKey := [1, 2, 3] } rfl rfl rfl

/-- Claim C5: For every username that decodes, `OnConfig` answers the
`sshproxy` backend routed at the decoded target verbatim, fixed port 2222,
fixed proxy username `"envd"`, and the process-wide fingerprint set
unmodified. -/
theorem onConfig_route_fields (s : Server) (username owner target : String)
    (h : GetInfo username = .ok (owner, target)) :
    OnConfig s username = .ok
      { backend := "sshproxy"
        sshProxy :=
          { server := target
            port := 2222
            username := "envd"
            allowedHostKeyFingerprints := s.serverFingerPrints } } := by
  simp [OnConfig, h]

/-- Witness for C5 at a concrete username and fingerprint set. -/
theorem onConfig_route_fields_witness :
    OnConfig { serverFingerPrints := ["SHA256:fp1", "SHA256:fp2"] }
        "alice#gpu-box-1" = .ok
      { backend := "sshproxy"
        sshProxy :=
          { server := "gpu-box-1"
            port := 2222
            username := "envd"
            allowedHostKeyFingerprints := ["SHA256:fp1", "SHA256:fp2"] } } :=
  onConfig_route_fields { serverFingerPrints := ["SHA256:fp1", "SHA256:fp2"] }
    "alice#gpu-box-1" "alice" "gpu-box-1" rfl

/-- Claim C6: A username the codec rejects makes both handlers fail with the
propagated `MalformedIdentity` error; neither produces a config or a
verdict. -/
theorem malformed_username_rejects_both (s : Server)
    (getUser : String → Except DBError UserRecord)
    (parseKey : String → Option (List Nat))
    (username pk : String)
    (h : GetInfo username = .error .malformedIdentity) :
    OnConfig s username = .error .malformedIdentity ∧
    OnPubKey getUser parseKey username pk = .error (.sshName .malformedIdentity) := by
  constructor
  · simp [OnConfig, h]
  · simp [OnPubKey, h]

/-- Witness for C6 at the spec's Scenario D username. -/
theorem malformed_username_rejects_both_witness :
    OnConfig { serverFingerPrints := ["SHA256:fp1"] } "malformed-no-delimiter" =
      .error .malformedIdentity ∧
    OnPubKey sampleGetUser sampleParseKey "malformed-no-delimiter" "good-key" =
      .error (.sshName .malformedIdentity) :=
  malformed_username_rejects_both { serverFingerPrints := ["SHA256:fp1"] }
    sampleGetUser sampleParseKey "malformed-no-delimiter" "good-key" rfl

/-- Claim C7: `OnConfig` is idempotent and deterministic: run in state-passing
form, a second call on the state left by the first call returns the very
same response and state. -/
theorem onConfigS_idempotent (s : Server) (username : String) :
    OnConfigS ((OnConfigS s username).2) username = OnConfigS s username := rfl

/-- Claim C8: `OnConfig` never mutates the process-wide fingerprint set, and
the set embedded in a successful response is value-equal to the process-wide
set. -/
theorem onConfigS_preserves_fingerprints (s : Server) (username : String) :
    (OnConfigS s username).2 = s ∧
    ∀ cfg, (OnConfigS s username).1 = .ok cfg →
      cfg.sshProxy.allowedHostKeyFingerprints = s.serverFingerPrints := by
  refine ⟨rfl, ?_⟩
  intro cfg h
  cases hg : GetInfo username with
  | error e => simp [OnConfigS, OnConfig, hg] at h
  | ok p =>
    obtain ⟨o, t⟩ := p
    simp [OnConfigS, OnConfig, hg] at h
    rw [← h]

/-- Witness for C8 at a concrete state and username. -/
theorem onConfigS_preserves_fingerprints_witness :
    (OnConfigS { serverFingerPrints := ["SHA256:fp1"] } "alice#gpu-box-1").2 =
      { serverFingerPrints := ["SHA256:fp1"] } ∧
    ({ backend := "sshproxy"
       sshProxy :=
         { server := "gpu-box-1"
           port := 2222
           username := "envd"
           allowedHostKeyFingerprints := ["SHA256:fp1"] } } :
        AppConfig).sshProxy.allowedHostKeyFingerprints = ["SHA256:fp1"] := by
  have h := onConfigS_preserves_fingerprints
    { serverFingerPrints := ["SHA256:fp1"] } "alice#gpu-box-1"
  exact ⟨h.1, h.2 _ rfl⟩

/-- Claim C9: The config answered by `OnConfig` does not depend on the owner
segment: two usernames decoding to the same target yield identical
responses. -/
theorem onConfig_independent_of_owner (s : Server) (u1 u2 o1 o2 t : String)
    (h1 : GetInfo u1 = .ok (o1, t)) (h2 : GetInfo u2 = .ok (o2, t)) :
    OnConfig s u1 = OnConfig s u2 := by
  simp [OnConfig, h1, h2]

/-- Witness for C9: two owners routed to the same target get the same
config. -/
theorem onConfig_independent_of_owner_witness :
    OnConfig { serverFingerPrints := ["SHA256:fp1"] } "alice#gpu-box-1" =
    OnConfig { serverFingerPrints := ["SHA256:fp1"] } "bob#gpu-box-1" :=
  onConfig_independent_of_owner { serverFingerPrints := ["SHA256:fp1"] }
    "alice#gpu-box-1" "bob#gpu-box-1" "alice" "bob" "gpu-box-1" rfl rfl

/-- Claim C10: The verdict of `OnPubKey` does not depend on the target
segment: two usernames decoding to the same owner yield the same result for
the same candidate key and the same user store. -/
theorem onPubKey_independent_of_target
    (getUser : String → Except DBError UserRecord)
    (parseKey : String → Option (List Nat))
    (u1 u2 o t1 t2 pk : String)
    (h1 : GetInfo u1 = .ok (o, t1)) (h2 : GetInfo u2 = .ok (o, t2)) :
    OnPubKey getUser parseKey u1 pk = OnPubKey getUser parseKey u2 pk := by
  simp [OnPubKey, h1, h2]

/-- Witness for C10: the same owner against two different targets gets the
same verdict. -/
theorem onPubKey_independent_of_target_witness :
    OnPubKey sampleGetUser sampleParseKey "alice#gpu-box-1" "good-key" =
    OnPubKey sampleGetUser sampleParseKey "alice#gpu-box-2" "good-key" :=
  onPubKey_independent_of_target sampleGetUser sampleParseKey
    "alice#gpu-box-1" "alice#gpu-box-2" "alice" "gpu-box-1" "gpu-box-2"
    "good-key" rfl rfl
